import Mathlib

/-!
Shallow embedding of the resilient WebSocket connection manager
(`WebSocketHandler` in `src/client/src/components/VideoCall.tsx`).

The class is single-threaded and event-driven.  We embed it as a record of
its fields (`WSState`) together with a small world component tracking which
timers the host environment actually has pending (`World`).  Every method of
the class becomes a pure function `WSState → WSState × List Effect`, where
`Effect` records the observable side effects (timer arm/cancel calls, frames
written to the socket, calls into the error sink, calls into registered
message handlers).  A driver `step` delivers environment events (socket
open/close/error, inbound frames, timer fires, public API calls) exactly the
way the event loop would, and applies the emitted effects to the world.

Modelling notes, each tied to the source:
* Timer ids: `window.setTimeout` / `window.setInterval` return positive
  integers, so `if (this.reconnectTimer)` / `if (this.pingInterval)` test
  truthiness of the id.  We model the fields as `Option Nat` and allocate
  ids from a counter starting at 1, so the `Option` test coincides with the
  source's truthiness test.
* `handleReconnect` clears a pending timer but does not null the field in
  its exhaustion branch; we reproduce that faithfully (the field may go
  stale while no timer is pending).
* The 5000 ms connection-establishment timeout and the transport close
  event both funnel into `handleReconnect`; a connection failure is
  delivered to the driver as the `closeEvt` event, which runs the
  `ws.onclose` body exactly as the source writes it.
* The socket's callbacks are never unregistered, and `close()` calls
  `ws.close` only on an OPEN socket: a socket abandoned by `close()` while
  still CONNECTING can therefore fire its `onopen` later.  The driver
  tracks such a socket in `Sys.leaked` and delivers its open as the
  `staleOpenEvt` event, which runs the `ws.onopen` body against the
  manager's current state (whose `this.ws` is null at that point).
* Consumer messages passed to the public `send` are opaque payloads; the
  `join` and `ping` control frames are produced only by the manager itself.
* Registered handlers are identified by a number; an environment parameter
  `hb` says, for each handler and message, whether the callback returns
  normally (`none`) or throws an exception carrying a message (`some e`).
  In the source the handler invocation sits inside the same `try`/`catch`
  as `JSON.parse`, so both failures reach the catch block.
* `message.error` is tested for JS truthiness: a present-but-empty string
  is falsy.  `truthy` models this for the `Option String` error field.
-/

namespace WSModel

/-- Ready state of the underlying `WebSocket` object. -/
inductive RS where
  | connecting
  | open
  | closed
deriving DecidableEq, Repr

/-- A parsed inbound JSON frame: its `type` tag, its optional top-level
`error` field (the wire format documents `error` as a string), and an
opaque identifier standing for the rest of the payload. -/
structure Msg where
  tag : String
  error : Option String
  payload : Nat
deriving DecidableEq, Repr

/-- An inbound frame as delivered by the transport: either raw text that
fails `JSON.parse`, or a parsed message. -/
inductive InFrame where
  | unparsable (raw : String)
  | parsed (m : Msg)
deriving DecidableEq, Repr

/-- Outbound frames: the manager's own `join` and `ping` control frames,
and opaque consumer payloads passed to the public `send`. -/
inductive OutFrame where
  | join (roomId : String)
  | ping
  | other (p : Nat)
deriving DecidableEq, Repr

/-- Errors handed to the `onError` sink, mirroring the `new Error(...)`
sites of the source. -/
inductive ErrMsg where
  | wsConnectionError
  | serverError (s : String)
  | processingError (s : String)
  | maxAttempts
deriving DecidableEq, Repr

/-- Observable side effects of the manager's code. -/
inductive Effect where
  | wsCreate
  | wsCloseStale
  | wsClose (code : Nat)
  | wsSend (f : OutFrame)
  | setTimeout (id delay : Nat)
  | clearTimeout (id : Nat)
  | setInterval (id period : Nat)
  | clearInterval (id : Nat)
  | errorSink (e : ErrMsg)
  | invokeHandler (h : Nat) (m : Msg)
deriving DecidableEq, Repr

/-- The fields of the `WebSocketHandler` class.  `wsExists` is `this.ws !==
null`; `wsReady` is the ready state of the current socket; `nextTimerId` is
the environment's timer-id allocator (ids are positive). -/
structure WSState where
  roomId : String
  wsExists : Bool
  wsReady : RS
  handlers : List (String × Nat)
  isConnected : Bool
  reconnectTimer : Option Nat
  maxRetries : Nat
  retryCount : Nat
  retryDelay : Nat
  pingInterval : Option Nat
  nextTimerId : Nat
deriving DecidableEq, Repr

/-- `this.ws?.readyState === WebSocket.OPEN`. -/
def wsOpen (s : WSState) : Bool :=
  s.wsExists && (match s.wsReady with | RS.open => true | _ => false)

/-- `Map.set`: register or replace the handler for a tag (last write wins). -/
def setHandler : List (String × Nat) → String → Nat → List (String × Nat)
  | [], tag, h => [(tag, h)]
  | (t, g) :: rest, tag, h =>
      if t = tag then (t, h) :: rest else (t, g) :: setHandler rest tag h

/-- `Map.get`: look up the handler registered for a tag. -/
def lookupHandler : List (String × Nat) → String → Option Nat
  | [], _ => none
  | (t, g) :: rest, tag => if t = tag then some g else lookupHandler rest tag

/-- JS truthiness of the string-valued `message.error` field: absent and
empty-string are both falsy. -/
def truthy : Option String → Bool
  | none => false
  | some s => !(s = "")

/-- `handleReconnect` (source lines 258-277): cancel a pending retry timer,
then either arm a new one with the current delay and double the delay
(capped at 10000), or report exhaustion of the retry budget. -/
def handleReconnect (s : WSState) : WSState × List Effect :=
  let clearEffs : List Effect :=
    match s.reconnectTimer with
    | some t => [Effect.clearTimeout t]
    | none => []
  if s.retryCount < s.maxRetries then
    let t := s.nextTimerId
    ({ s with retryCount := s.retryCount + 1
            , reconnectTimer := some t
            , retryDelay := min (s.retryDelay * 2) 10000
            , nextTimerId := t + 1 },
     clearEffs ++ [Effect.setTimeout t s.retryDelay])
  else
    (s, clearEffs ++ [Effect.errorSink ErrMsg.maxAttempts])

/-- `send` (source lines 279-294): transmit only when the socket is open;
otherwise drop the message and invoke `handleReconnect` defensively. -/
def send (s : WSState) (f : OutFrame) : WSState × List Effect :=
  if wsOpen s then (s, [Effect.wsSend f])
  else handleReconnect s

/-- `setupPing` (source lines 161-175): clear an existing heartbeat
interval, then arm a fresh 30000 ms interval. -/
def setupPing (s : WSState) : WSState × List Effect :=
  let clearEffs : List Effect :=
    match s.pingInterval with
    | some t => [Effect.clearInterval t]
    | none => []
  let t := s.nextTimerId
  ({ s with pingInterval := some t, nextTimerId := t + 1 },
   clearEffs ++ [Effect.setInterval t 30000])

/-- The body of the heartbeat interval callback: send `{type:"ping"}` only
when the socket is currently open. -/
def pingTick (s : WSState) : WSState × List Effect :=
  if wsOpen s then send s OutFrame.ping else (s, [])

/-- `connect` (source lines 177-256): no-op when already open; otherwise
discard any stale socket and create a fresh one (which starts in the
`CONNECTING` ready state).  Failures of the attempt — the establishment
timeout or a transport close — are delivered later as the close event. -/
def connect (s : WSState) : WSState × List Effect :=
  if wsOpen s then (s, [])
  else
    let discard : List Effect := if s.wsExists then [Effect.wsCloseStale] else []
    ({ s with wsExists := true, wsReady := RS.connecting },
     discard ++ [Effect.wsCreate])

/-- The body of `ws.onopen` (source lines 202-211), run after the socket's
ready state has become open: mark connected, reset the retry state, start
the heartbeat, and send the `{type:"join", roomId}` control frame. -/
def onopen (s : WSState) : WSState × List Effect :=
  let s1 := { s with isConnected := true, retryCount := 0, retryDelay := 1000 }
  let r2 := setupPing s1
  let r3 := send r2.1 (OutFrame.join s.roomId)
  (r3.1, r2.2 ++ r3.2)

/-- The body of `ws.onclose` (source lines 213-223): stop the heartbeat
interval, mark disconnected, and consult the retry scheduler. -/
def onclose (s : WSState) : WSState × List Effect :=
  let r1 : WSState × List Effect :=
    match s.pingInterval with
    | some t => ({ s with pingInterval := none }, [Effect.clearInterval t])
    | none => (s, [])
  let s2 := { r1.1 with isConnected := false }
  let r3 := handleReconnect s2
  (r3.1, r1.2 ++ r3.2)

/-- The body of `ws.onerror` (source lines 225-228): report to the error
sink only; no state change and no reconnection logic. -/
def onerror (s : WSState) : WSState × List Effect :=
  (s, [Effect.errorSink ErrMsg.wsConnectionError])

/-- The body of `ws.onmessage` (source lines 230-249).  `hb` is the
behaviour of registered handlers: `hb h m = some e` means handler `h`
throws an exception with message `e` on payload `m`.  Parse failures and
handler exceptions are caught by the same `catch` and reported to the
error sink. -/
def onmessage (hb : Nat → Msg → Option String) (s : WSState) (f : InFrame) :
    WSState × List Effect :=
  match f with
  | InFrame.unparsable raw =>
      (s, [Effect.errorSink (ErrMsg.processingError ("JSON parse error: " ++ raw))])
  | InFrame.parsed m =>
      if truthy m.error then
        (s, [Effect.errorSink (ErrMsg.serverError (m.error.getD ""))])
      else
        match lookupHandler s.handlers m.tag with
        | none => (s, [])
        | some h =>
            match hb h m with
            | none => (s, [Effect.invokeHandler h m])
            | some e =>
                (s, [Effect.invokeHandler h m,
                     Effect.errorSink (ErrMsg.processingError e)])

/-- `onMessage` (source lines 296-299): register or replace the single
handler for a tag. -/
def onMessage (s : WSState) (tag : String) (h : Nat) : WSState × List Effect :=
  ({ s with handlers := setHandler s.handlers tag h }, [])

/-- `close` (source lines 301-325): cancel both timers, and — only when a
socket reference exists — force the retry count to the maximum and close
the socket with the normal-closure code 1000 only when it is open; finally
mark disconnected and clear the handler registry. -/
def close (s : WSState) : WSState × List Effect :=
  let r1 : WSState × List Effect :=
    match s.reconnectTimer with
    | some t => ({ s with reconnectTimer := none }, [Effect.clearTimeout t])
    | none => (s, [])
  let r2 : WSState × List Effect :=
    match r1.1.pingInterval with
    | some t => ({ r1.1 with pingInterval := none }, [Effect.clearInterval t])
    | none => (r1.1, [])
  let r3 : WSState × List Effect :=
    if r2.1.wsExists then
      let s3 := { r2.1 with retryCount := r2.1.maxRetries }
      match s3.wsReady with
      | RS.open => ({ s3 with wsExists := false }, [Effect.wsClose 1000])
      | _ => ({ s3 with wsExists := false }, [])
    else (r2.1, [])
  ({ r3.1 with isConnected := false, handlers := [] }, r1.2 ++ r2.2 ++ r3.2)

/-- The field values installed by the constructor, before it calls
`connect()`. -/
def initFields (room : String) : WSState :=
  { roomId := room
  , wsExists := false
  , wsReady := RS.closed
  , handlers := []
  , isConnected := false
  , reconnectTimer := none
  , maxRetries := 3
  , retryCount := 0
  , retryDelay := 1000
  , pingInterval := none
  , nextTimerId := 1 }

/-- The constructor: install the fields, then `connect()`. -/
def initWS (room : String) : WSState × List Effect :=
  connect (initFields room)

/-- The host environment's pending timers: at most the ids listed are
armed.  `pendingRT` are pending one-shot reconnect timeouts, `pendingPI`
armed heartbeat intervals. -/
structure World where
  pendingRT : List Nat
  pendingPI : List Nat
deriving DecidableEq, Repr

/-- How an emitted effect changes the environment's pending timers. -/
def applyEff (w : World) : Effect → World
  | Effect.clearTimeout i => { w with pendingRT := w.pendingRT.erase i }
  | Effect.setTimeout i _ => { w with pendingRT := w.pendingRT ++ [i] }
  | Effect.clearInterval i => { w with pendingPI := w.pendingPI.erase i }
  | Effect.setInterval i _ => { w with pendingPI := w.pendingPI ++ [i] }
  | _ => w

def applyEffs (w : World) (l : List Effect) : World :=
  l.foldl applyEff w

/-- Manager state plus the environment: the pending timers, and whether a
socket abandoned by `close()` while still connecting is out there.  Its
`onopen` callback is never unregistered, so its open event can still be
delivered to the manager. -/
structure Sys where
  st : WSState
  w : World
  leaked : Bool
deriving DecidableEq, Repr

/-- Events the event loop can deliver to the manager.  `staleOpenEvt` is
the open event of a socket that `close()` abandoned while it was still
connecting. -/
inductive Event where
  | openEvt
  | closeEvt
  | errorEvt
  | msgEvt (f : InFrame)
  | timerFire
  | pingFire
  | sendOp (p : Nat)
  | onMessageOp (tag : String) (h : Nat)
  | closeOp
  | staleOpenEvt
deriving DecidableEq, Repr

/-- Package a method result: apply its effects to the world. -/
def mkSys (y : Sys) (r : WSState × List Effect) : Sys × List Effect :=
  ({ st := r.1, w := applyEffs y.w r.2, leaked := y.leaked }, r.2)

/-- Does a `close()` call abandon a socket that may still fire its open
callback?  Exactly when a socket reference exists and the socket is still
connecting: `close()` only calls `ws.close` on an OPEN socket, so a
CONNECTING socket keeps establishing with its `onopen` still registered. -/
def leakAfterClose (s : WSState) : Bool :=
  s.wsExists && (match s.wsReady with | RS.connecting => true | _ => false)

/-- One event-loop step.  Socket events fire only when they can (`open`
only for a non-open existing socket; a timer fires only while pending);
a close event may also arrive late, after `close()` detached the socket,
because the source never unregisters the `onclose` callback.  The open
event of a socket abandoned by `close()` while connecting is delivered as
`staleOpenEvt`; it runs the `ws.onopen` body against the current state.
Its guard `wsExists = false` excludes nothing the program can do: the
leaking `close()` nulls `this.ws`, forces the retry count to its maximum
and cancels all timers, so no code path recreates a socket before that
very open fires (the resurrection it causes is what re-arms them). -/
def step (hb : Nat → Msg → Option String) (y : Sys) (e : Event) :
    Sys × List Effect :=
  match e with
  | Event.openEvt =>
      if y.st.wsExists = true ∧ y.st.wsReady ≠ RS.open then
        mkSys y (onopen { y.st with wsReady := RS.open })
      else (y, [])
  | Event.closeEvt =>
      let st0 := if y.st.wsExists then { y.st with wsReady := RS.closed } else y.st
      mkSys y (onclose st0)
  | Event.errorEvt => mkSys y (onerror y.st)
  | Event.msgEvt f => mkSys y (onmessage hb y.st f)
  | Event.timerFire =>
      match y.w.pendingRT with
      | [_] =>
          let y1 : Sys :=
            { st := { y.st with reconnectTimer := none }
            , w := { y.w with pendingRT := [] }
            , leaked := y.leaked }
          mkSys y1 (connect y1.st)
      | _ => (y, [])
  | Event.pingFire =>
      match y.w.pendingPI with
      | [_] => mkSys y (pingTick y.st)
      | _ => (y, [])
  | Event.sendOp p => mkSys y (send y.st (OutFrame.other p))
  | Event.onMessageOp tag h => mkSys y (onMessage y.st tag h)
  | Event.closeOp =>
      ({ st := (close y.st).1
       , w := applyEffs y.w (close y.st).2
       , leaked := y.leaked || leakAfterClose y.st }, (close y.st).2)
  | Event.staleOpenEvt =>
      if y.leaked = true ∧ y.st.wsExists = false then
        ({ st := (onopen y.st).1
         , w := applyEffs y.w (onopen y.st).2
         , leaked := false }, (onopen y.st).2)
      else (y, [])

/-- Run a sequence of events, collecting the full effect trace. -/
def run (hb : Nat → Msg → Option String) : Sys → List Event → Sys × List Effect
  | y, [] => (y, [])
  | y, e :: es =>
      let r1 := step hb y e
      let r2 := run hb r1.1 es
      (r2.1, r1.2 ++ r2.2)

/-- The system right after construction: fields installed, `connect()`
run, its effects applied to an empty world. -/
def initSys (room : String) : Sys :=
  { st := (initWS room).1
  , w := applyEffs { pendingRT := [], pendingPI := [] } (initWS room).2
  , leaked := false }

/-- States the manager can actually be in: reachable from some freshly
constructed manager by some sequence of events. -/
def Reachable (hb : Nat → Msg → Option String) (y : Sys) : Prop :=
  ∃ room evs, (run hb (initSys room) evs).1 = y

/-- A handler environment in which no registered handler ever throws. -/
def hb0 : Nat → Msg → Option String := fun _ _ => none

/-- A handler environment in which every registered handler throws. -/
def hbThrow : Nat → Msg → Option String := fun _ _ => some "boom"

/-- The delays of the reconnect timers armed in an effect trace, in order. -/
def armedDelays (l : List Effect) : List Nat :=
  l.filterMap fun e =>
    match e with
    | Effect.setTimeout _ d => some d
    | _ => none

/-- Is the effect an outbound frame? -/
def isSend : Effect → Bool
  | Effect.wsSend _ => true
  | _ => false

/-- Is the effect an outbound `join` frame? -/
def isJoinSend : Effect → Bool
  | Effect.wsSend (OutFrame.join _) => true
  | _ => false

/-- Is the effect an invocation of a registered handler? -/
def isInvoke : Effect → Bool
  | Effect.invokeHandler _ _ => true
  | _ => false

/-- Does the effect arm a timer or start a connection attempt? -/
def armsOrConnects : Effect → Bool
  | Effect.setTimeout _ _ => true
  | Effect.setInterval _ _ => true
  | Effect.wsCreate => true
  | _ => false

theorem applyEffs_nil (w : World) : applyEffs w [] = w := rfl

theorem applyEffs_cons (w : World) (e : Effect) (l : List Effect) :
    applyEffs w (e :: l) = applyEffs (applyEff w e) l := rfl

theorem applyEffs_append (w : World) (l₁ l₂ : List Effect) :
    applyEffs w (l₁ ++ l₂) = applyEffs (applyEffs w l₁) l₂ :=
  List.foldl_append _ _ _ _

/-- Four consecutive connection failures, each delivered as the transport
close event, with the armed reconnect timer firing in between. -/
def fourFailures : List Event :=
  [Event.closeEvt, Event.timerFire, Event.closeEvt, Event.timerFire,
   Event.closeEvt, Event.timerFire, Event.closeEvt]

/-- C1: from a freshly constructed manager (`retryCount = 0`,
`retryDelay = 1000`, `maxRetries = 3`), three consecutive connection
failures arm reconnect timers with delays 1000, 2000, 4000 ms and increment
the attempt count to 1, 2, 3 respectively, and the fourth consecutive
failure arms no timer and emits exactly the terminal
reconnection-exhaustion error to the error sink. -/
theorem backoff_growth_and_exhaustion :
    armedDelays (run hb0 (initSys "room") fourFailures).2 = [1000, 2000, 4000]
    ∧ ((run hb0 (initSys "room") (fourFailures.take 1)).1).st.retryCount = 1
    ∧ ((run hb0 (initSys "room") (fourFailures.take 3)).1).st.retryCount = 2
    ∧ ((run hb0 (initSys "room") (fourFailures.take 5)).1).st.retryCount = 3
    ∧ (step hb0 ((run hb0 (initSys "room") (fourFailures.take 6)).1)
         Event.closeEvt).2 = [Effect.errorSink ErrMsg.maxAttempts] := by
  exact ⟨rfl, rfl, rfl, rfl, rfl⟩

/-- C9: a frame that fails to parse is reported to the error sink exactly
once as a decode error, and the whole system state — connection status,
retry state, pending timers, handler registry — is left unchanged. -/
theorem parse_failure_reported_state_unchanged
    (hb : Nat → Msg → Option String) (y : Sys) (raw : String) :
    step hb y (Event.msgEvt (InFrame.unparsable raw)) =
      (y, [Effect.errorSink (ErrMsg.processingError ("JSON parse error: " ++ raw))]) :=
  rfl

/-- A system with a handler (number 7) registered for tag `"chat"`,
reached from a fresh manager by one `onMessage` registration. -/
def chatReg : Sys :=
  (run hb0 (initSys "room") [Event.onMessageOp "chat" 7]).1

/-- A parsed frame of type `"chat"` that carries a top-level `error` field
whose value is the empty string — present, but falsy in JS. -/
def chatMsgEmptyErr : Msg :=
  { tag := "chat", error := some "", payload := 5 }

/-- A parsed frame of type `"chat"` with a non-empty `error` field. -/
def chatMsgBoom : Msg :=
  { tag := "chat", error := some "boom", payload := 5 }

/-- C7 counterexample: the source tests `if (message.error)`, i.e. JS
truthiness, not presence.  A reachable manager with a `"chat"` handler
registered, fed the frame `{type:"chat", error:"", ...}` — which does carry
a top-level `error` field — invokes the `"chat"` handler and never touches
the error sink, contradicting the claim that every frame carrying an
`error` field is routed to the error sink and to no handler. -/
theorem empty_error_field_reaches_handler :
    chatMsgEmptyErr.error = some ""
    ∧ (step hb0 chatReg (Event.msgEvt (InFrame.parsed chatMsgEmptyErr))).2 =
        [Effect.invokeHandler 7 chatMsgEmptyErr]
    ∧ Reachable hb0 chatReg :=
  ⟨rfl, rfl, "room", [Event.onMessageOp "chat" 7], rfl⟩

/-- C7 amended: for every parsed inbound frame whose top-level `error`
field is truthy (present and non-empty), the frame is routed to the error
sink alone — no handler is invoked, processing stops, and the whole system
state is unchanged. -/
theorem truthy_error_field_routes_to_sink_only
    (hb : Nat → Msg → Option String) (y : Sys) (m : Msg)
    (h : truthy m.error = true) :
    step hb y (Event.msgEvt (InFrame.parsed m)) =
      (y, [Effect.errorSink (ErrMsg.serverError (m.error.getD ""))]) := by
  simp only [step, onmessage, h, if_true, mkSys, applyEffs_cons, applyEffs_nil, applyEff]

/-- Witness for the amended C7 theorem at a concrete reachable state and
concrete frame `{type:"chat", error:"boom"}` with a `"chat"` handler
registered. -/
theorem truthy_error_field_routes_to_sink_only_witness :
    step hb0 chatReg (Event.msgEvt (InFrame.parsed chatMsgBoom)) =
      (chatReg, [Effect.errorSink (ErrMsg.serverError "boom")]) :=
  truthy_error_field_routes_to_sink_only hb0 chatReg chatMsgBoom rfl

/-- C10: when a registered handler throws on an inbound frame, the
exception is caught by the `catch` of the message-receive path and
reported to the error sink; the handler was still invoked exactly once,
and the connection state, both timers, and the handler registry are
unchanged. -/
theorem handler_exception_caught_and_reported
    (hb : Nat → Msg → Option String) (y : Sys) (m : Msg) (h : Nat) (e : String)
    (hm : truthy m.error = false)
    (hl : lookupHandler y.st.handlers m.tag = some h)
    (hbe : hb h m = some e) :
    step hb y (Event.msgEvt (InFrame.parsed m)) =
      (y, [Effect.invokeHandler h m,
           Effect.errorSink (ErrMsg.processingError e)]) := by
  simp [step, onmessage, hm, hl, hbe, mkSys,
    applyEffs_cons, applyEffs_nil, applyEff]

/-- Witness for C10: a reachable manager with handler 7 registered for
`"chat"`, fed a plain `"chat"` frame under an environment in which the
handler throws. -/
theorem handler_exception_caught_and_reported_witness :
    step hbThrow chatReg
        (Event.msgEvt (InFrame.parsed { tag := "chat", error := none, payload := 9 })) =
      (chatReg, [Effect.invokeHandler 7 { tag := "chat", error := none, payload := 9 },
                 Effect.errorSink (ErrMsg.processingError "boom")]) :=
  handler_exception_caught_and_reported hbThrow chatReg
    { tag := "chat", error := none, payload := 9 } 7 "boom" rfl rfl rfl

theorem handleReconnect_no_send (s : WSState) (f : OutFrame) :
    Effect.wsSend f ∉ (handleReconnect s).2 := by
  unfold handleReconnect
  rcases s.reconnectTimer with _ | t <;> by_cases h : s.retryCount < s.maxRetries <;>
    simp [h]

/-- C6: the public `send` transmits only over an open socket.  When the
socket is not open the message is dropped — no frame is written and the
state has no queue to hold it — and the call behaves exactly as one
invocation of the retry scheduler `handleReconnect`; being a total
function of the state, it throws nothing.  When the socket is open, the
serialized message is transmitted and nothing else happens. -/
theorem send_gates_on_open_and_triggers_retry
    (hb : Nat → Msg → Option String) (y : Sys) (p : Nat) :
    (wsOpen y.st = true →
       step hb y (Event.sendOp p) = (y, [Effect.wsSend (OutFrame.other p)]))
    ∧ (wsOpen y.st = false →
       (step hb y (Event.sendOp p)).2 = (handleReconnect y.st).2
       ∧ (step hb y (Event.sendOp p)).1.st = (handleReconnect y.st).1
       ∧ ∀ f, Effect.wsSend f ∉ (step hb y (Event.sendOp p)).2) := by
  constructor
  · intro h
    simp [step, send, h, mkSys, applyEffs_cons, applyEffs_nil, applyEff]
  · intro h
    have hs : send y.st (OutFrame.other p) = handleReconnect y.st := by
      simp [send, h]
    refine ⟨by simp [step, mkSys, hs], by simp [step, mkSys, hs], ?_⟩
    intro f
    simp only [step, mkSys, hs]
    exact handleReconnect_no_send y.st f

/-- Witness for C6 at concrete states: a freshly constructed manager is
not yet open, so a consumer `send` drops the payload and runs the retry
scheduler; after the open event the socket is open and the payload is
transmitted. -/
theorem send_gates_on_open_and_triggers_retry_witness :
    (wsOpen (initSys "room").st = false
      ∧ (step hb0 (initSys "room") (Event.sendOp 4)).2 =
          (handleReconnect (initSys "room").st).2)
    ∧ (wsOpen ((run hb0 (initSys "room") [Event.openEvt]).1).st = true
      ∧ step hb0 ((run hb0 (initSys "room") [Event.openEvt]).1) (Event.sendOp 4) =
          (((run hb0 (initSys "room") [Event.openEvt]).1),
            [Effect.wsSend (OutFrame.other 4)])) :=
  ⟨⟨rfl, ((send_gates_on_open_and_triggers_retry hb0 (initSys "room") 4).2 rfl).1⟩,
   ⟨rfl, (send_gates_on_open_and_triggers_retry hb0
      ((run hb0 (initSys "room") [Event.openEvt]).1) 4).1 rfl⟩⟩

theorem lookupHandler_setHandler_self (hs : List (String × Nat)) (tag : String) (h : Nat) :
    lookupHandler (setHandler hs tag h) tag = some h := by
  induction hs with
  | nil => simp [setHandler, lookupHandler]
  | cons hd rest ih =>
      obtain ⟨a, b⟩ := hd
      by_cases ht : a = tag
      · simp [setHandler, lookupHandler, ht]
      · simp [setHandler, lookupHandler, ht, ih]

theorem lookupHandler_setHandler_other (hs : List (String × Nat)) (tag : String) (h : Nat)
    (t : String) (hne : t ≠ tag) :
    lookupHandler (setHandler hs tag h) t = lookupHandler hs t := by
  have hne' : ¬tag = t := fun hh => hne hh.symm
  induction hs with
  | nil => simp [setHandler, lookupHandler, hne']
  | cons hd rest ih =>
      obtain ⟨a, b⟩ := hd
      by_cases ht : a = tag
      · subst ht
        simp [setHandler, lookupHandler, hne']
      · by_cases ht2 : a = t <;> simp [setHandler, lookupHandler, ht, ht2, ih, hne]

/-- C8: for a parsed frame with no `error` field, a registered handler for
its type tag is invoked exactly once with the full payload (whether or not
it throws); with no registered handler the frame is silently discarded —
no callback, no error, no state change; and `onMessage` registers the
handler for a tag, replacing any previous one and leaving other tags
untouched. -/
theorem dispatch_by_type_tag
    (hb : Nat → Msg → Option String) (y : Sys) (m : Msg)
    (hm : m.error = none) :
    (∀ h, lookupHandler y.st.handlers m.tag = some h →
        (step hb y (Event.msgEvt (InFrame.parsed m))).2.filter isInvoke =
          [Effect.invokeHandler h m])
    ∧ (lookupHandler y.st.handlers m.tag = none →
        step hb y (Event.msgEvt (InFrame.parsed m)) = (y, []))
    ∧ (∀ tag h, lookupHandler (setHandler y.st.handlers tag h) tag = some h)
    ∧ (∀ tag h t, t ≠ tag →
        lookupHandler (setHandler y.st.handlers tag h) t =
          lookupHandler y.st.handlers t)
    ∧ (∀ tag h, step hb y (Event.onMessageOp tag h) =
        ({ st := { y.st with handlers := setHandler y.st.handlers tag h }
         , w := y.w, leaked := y.leaked }, [])) := by
  have htr : truthy m.error = false := by rw [hm]; rfl
  refine ⟨?_, ?_, ?_, ?_, ?_⟩
  · intro h hl
    rcases hbe : hb h m with _ | e <;>
      simp [step, onmessage, htr, hl, hbe, mkSys, isInvoke,
        applyEffs_cons, applyEffs_nil, applyEff]
  · intro hl
    simp [step, onmessage, htr, hl, mkSys, applyEffs_nil]
  · intro tag h
    exact lookupHandler_setHandler_self y.st.handlers tag h
  · intro tag h t hne
    exact lookupHandler_setHandler_other y.st.handlers tag h t hne
  · intro tag h
    rfl

/-- Witness for C8 at concrete inputs: with handler 7 registered for
`"chat"`, the frame `{type:"chat", payload}` invokes handler 7 exactly
once with the full payload; the frame `{type:"unknown"}` is silently
discarded; registration is visible in the registry. -/
theorem dispatch_by_type_tag_witness :
    ((step hb0 chatReg
        (Event.msgEvt (InFrame.parsed { tag := "chat", error := none, payload := 3 }))).2.filter
          isInvoke =
        [Effect.invokeHandler 7 { tag := "chat", error := none, payload := 3 }])
    ∧ step hb0 chatReg
        (Event.msgEvt (InFrame.parsed { tag := "unknown", error := none, payload := 3 })) =
        (chatReg, []) :=
  ⟨(dispatch_by_type_tag hb0 chatReg
      { tag := "chat", error := none, payload := 3 } rfl).1 7 rfl,
   (dispatch_by_type_tag hb0 chatReg
      { tag := "unknown", error := none, payload := 3 } rfl).2.1 rfl⟩

/-- The condition under which the transport's open event is accepted by
the manager: a socket reference exists and it is not already open. -/
def succOpen (y : Sys) : Prop :=
  y.st.wsExists = true ∧ y.st.wsReady ≠ RS.open

instance (y : Sys) : Decidable (succOpen y) := by
  unfold succOpen; infer_instance

/-- Number of successful opens along an event sequence. -/
def succOpens (hb : Nat → Msg → Option String) : Sys → List Event → Nat
  | _, [] => 0
  | y, e :: es =>
      (if e = Event.openEvt ∧ succOpen y then 1 else 0)
        + succOpens hb (step hb y e).1 es

theorem handleReconnect_filter_join (s : WSState) :
    (handleReconnect s).2.filter isJoinSend = [] := by
  unfold handleReconnect
  rcases s.reconnectTimer with _ | t <;>
    by_cases h : s.retryCount < s.maxRetries <;>
      simp [h, isJoinSend]

theorem onclose_filter_join (s : WSState) :
    (onclose s).2.filter isJoinSend = [] := by
  unfold onclose
  rcases s.pingInterval with _ | t <;>
    simp [isJoinSend, List.filter_append, handleReconnect_filter_join]

theorem connect_filter_join (s : WSState) :
    (connect s).2.filter isJoinSend = [] := by
  unfold connect
  by_cases h : wsOpen s = true <;> rcases hex : s.wsExists <;>
    simp [h, hex, isJoinSend]

theorem close_filter_join (s : WSState) :
    (close s).2.filter isJoinSend = [] := by
  unfold close
  rcases s.reconnectTimer with _ | t <;>
    rcases hpi : s.pingInterval with _ | t' <;>
      rcases hex : s.wsExists with _ | _ <;>
        rcases hrs : s.wsReady with _ | _ | _ <;>
          simp [hpi, hex, hrs, isJoinSend, List.filter_append]

theorem onmessage_filter_join (hb : Nat → Msg → Option String) (s : WSState) (f : InFrame) :
    (onmessage hb s f).2.filter isJoinSend = [] := by
  rcases f with raw | m
  · rfl
  · unfold onmessage
    by_cases h : truthy m.error = true
    · simp [h, isJoinSend]
    · rcases hl : lookupHandler s.handlers m.tag with _ | hh
      · simp [h, hl]
      · rcases hbe : hb hh m with _ | e <;> simp [h, hl, hbe, isJoinSend]

theorem pingTick_filter_join (s : WSState) :
    (pingTick s).2.filter isJoinSend = [] := by
  unfold pingTick send
  by_cases h : wsOpen s = true <;> simp [h, isJoinSend, handleReconnect_filter_join]

theorem send_other_filter_join (s : WSState) (p : Nat) :
    (send s (OutFrame.other p)).2.filter isJoinSend = [] := by
  unfold send
  by_cases h : wsOpen s = true <;>
    simp [h, isJoinSend, handleReconnect_filter_join]

/-- The open handler, run on the state whose ready state just became open:
the only outbound frame of the whole handler is the single `join` frame,
and the retry state has been reset. -/
theorem onopen_spec (s : WSState) (hex : s.wsExists = true) (hrs : s.wsReady = RS.open) :
    (onopen s).2.filter isSend = [Effect.wsSend (OutFrame.join s.roomId)]
    ∧ (onopen s).2.filter isJoinSend = [Effect.wsSend (OutFrame.join s.roomId)]
    ∧ (onopen s).1.retryCount = 0 ∧ (onopen s).1.retryDelay = 1000 := by
  unfold onopen setupPing send wsOpen
  rcases hpi : s.pingInterval with _ | t <;>
    simp [hex, hrs, hpi, isSend, isJoinSend, List.filter_append]

/-- The open handler run while the socket reference is gone (a stale open
after `close()`): its `send` of the join frame falls into the
not-connected branch and is dropped, so no join frame is emitted. -/
theorem onopen_notopen_filter_join (s : WSState) (h : wsOpen s = false) :
    (onopen s).2.filter isJoinSend = [] := by
  have h2 : wsOpen { s with
      isConnected := true, retryCount := 0, retryDelay := 1000,
      pingInterval := some s.nextTimerId, nextTimerId := s.nextTimerId + 1 } = false := h
  unfold onopen setupPing send
  rcases hpi : s.pingInterval with _ | t <;>
    simp [hpi, h2, isJoinSend, List.filter_append, handleReconnect_filter_join]

theorem joinCount_step (hb : Nat → Msg → Option String) (y : Sys) (e : Event) :
    ((step hb y e).2.filter isJoinSend).length =
      if e = Event.openEvt ∧ succOpen y then 1 else 0 := by
  rcases e with _ | _ | _ | f | _ | _ | p | ⟨tag, h⟩ | _ | _
  · unfold succOpen
    by_cases hs : y.st.wsExists = true ∧ y.st.wsReady ≠ RS.open
    · have hset := onopen_spec { y.st with wsReady := RS.open } hs.1 rfl
      simp only [step]
      rw [if_pos hs, if_pos ⟨by trivial, hs⟩]
      simp [mkSys, hset.2.1]
    · simp only [step]
      rw [if_neg hs, if_neg (fun hc => hs hc.2)]
      simp
  · simp [step, mkSys, onclose_filter_join, succOpen]
  · simp [step, mkSys, onerror, isJoinSend, succOpen]
  · simp [step, mkSys, onmessage_filter_join, succOpen]
  · rcases hrt : y.w.pendingRT with _ | ⟨t, _ | ⟨t2, rest⟩⟩ <;>
      simp [step, hrt, mkSys, connect_filter_join, succOpen]
  · rcases hpi : y.w.pendingPI with _ | ⟨t, _ | ⟨t2, rest⟩⟩ <;>
      simp [step, hpi, mkSys, pingTick_filter_join, succOpen]
  · simp [step, mkSys, send_other_filter_join, succOpen]
  · simp [step, mkSys, onMessage, succOpen]
  · simp [step, mkSys, close_filter_join, succOpen]
  · by_cases hg : y.leaked = true ∧ y.st.wsExists = false
    · have hno : wsOpen y.st = false := by
        unfold wsOpen
        rw [hg.2]
        rfl
      simp only [step]
      rw [if_pos hg]
      show ((onopen y.st).2.filter isJoinSend).length = _
      rw [onopen_notopen_filter_join y.st hno]
      simp
    · simp only [step]
      rw [if_neg hg]
      simp

theorem joinCount_run (hb : Nat → Msg → Option String) (y : Sys) (evs : List Event) :
    ((run hb y evs).2.filter isJoinSend).length = succOpens hb y evs := by
  induction evs generalizing y with
  | nil => rfl
  | cons e es ih =>
      simp [run, succOpens, List.filter_append, joinCount_step, ih]

/-- C3: along every event sequence the number of `join` frames in the
effect trace equals the number of successful opens; and every successful
open itself emits exactly one outbound frame, the `{type:"join", roomId}`
control frame — so it precedes every consumer or heartbeat frame of that
connection — and resets the retry state (`retryCount = 0`,
`retryDelay = baseDelayMs = 1000`) in the same step. -/
theorem join_once_per_successful_open (hb : Nat → Msg → Option String) :
    (∀ y evs, ((run hb y evs).2.filter isJoinSend).length = succOpens hb y evs)
    ∧ (∀ y, succOpen y →
        (step hb y Event.openEvt).2.filter isSend =
          [Effect.wsSend (OutFrame.join y.st.roomId)]
        ∧ (step hb y Event.openEvt).1.st.retryCount = 0
        ∧ (step hb y Event.openEvt).1.st.retryDelay = 1000) := by
  refine ⟨joinCount_run hb, ?_⟩
  intro y hs
  have hset := onopen_spec { y.st with wsReady := RS.open } hs.1 rfl
  simp only [step, succOpen] at *
  rw [if_pos hs]
  exact ⟨hset.1, by simp [mkSys, hset.2.2.1], by simp [mkSys, hset.2.2.2]⟩

/-- Witness for C3: the freshly constructed manager accepts the open
event; its open step sends exactly the join frame and resets the retry
state, and over a concrete disconnect/reconnect cycle the trace carries
exactly two join frames for its two successful opens. -/
theorem join_once_per_successful_open_witness :
    ((step hb0 (initSys "room") Event.openEvt).2.filter isSend =
        [Effect.wsSend (OutFrame.join "room")]
      ∧ (step hb0 (initSys "room") Event.openEvt).1.st.retryCount = 0
      ∧ (step hb0 (initSys "room") Event.openEvt).1.st.retryDelay = 1000)
    ∧ ((run hb0 (initSys "room")
          [Event.openEvt, Event.closeEvt, Event.timerFire, Event.openEvt]).2.filter
            isJoinSend).length =
        succOpens hb0 (initSys "room")
          [Event.openEvt, Event.closeEvt, Event.timerFire, Event.openEvt] :=
  ⟨(join_once_per_successful_open hb0).2 (initSys "room") ⟨rfl, by decide⟩,
   (join_once_per_successful_open hb0).1 (initSys "room")
     [Event.openEvt, Event.closeEvt, Event.timerFire, Event.openEvt]⟩

/-- The state part of `handleReconnect`. -/
theorem handleReconnect_st (s : WSState) :
    (handleReconnect s).1 =
      if s.retryCount < s.maxRetries then
        { s with retryCount := s.retryCount + 1
               , reconnectTimer := some s.nextTimerId
               , retryDelay := min (s.retryDelay * 2) 10000
               , nextTimerId := s.nextTimerId + 1 }
      else s := by
  unfold handleReconnect
  rcases s.reconnectTimer with _ | t <;>
    by_cases h : s.retryCount < s.maxRetries <;> simp [h]

/-- How `handleReconnect`'s effects change the pending timers, under the
single-timer agreement between the environment and the field. -/
theorem applyEffs_handleReconnect (w : World) (s : WSState)
    (hag : w.pendingRT = [] ∨ ∃ t, w.pendingRT = [t] ∧ s.reconnectTimer = some t) :
    applyEffs w (handleReconnect s).2 =
      if s.retryCount < s.maxRetries then { w with pendingRT := [s.nextTimerId] }
      else { w with pendingRT := [] } := by
  unfold handleReconnect
  obtain ⟨wrt, wpi⟩ := w
  rcases hf : s.reconnectTimer with _ | t
  · have hrt : wrt = [] := by
      rcases hag with hag | ⟨t, h1, h2⟩
      · exact hag
      · rw [hf] at h2; cases h2
    by_cases h : s.retryCount < s.maxRetries <;>
      simp [h, applyEffs, applyEff, hrt]
  · rcases hag with hag | ⟨t', h1, h2⟩
    · have hrt : wrt = [] := hag
      by_cases h : s.retryCount < s.maxRetries <;>
        simp [h, applyEffs, applyEff, hrt]
    · rw [hf] at h2
      injection h2 with h2
      subst h2
      have hrt : wrt = [t] := h1
      by_cases h : s.retryCount < s.maxRetries <;>
        simp [h, applyEffs, applyEff, hrt]

theorem onmessage_st_world (hb : Nat → Msg → Option String) (s : WSState)
    (f : InFrame) (w : World) :
    (onmessage hb s f).1 = s ∧ applyEffs w (onmessage hb s f).2 = w := by
  rcases f with raw | m
  · exact ⟨rfl, rfl⟩
  · unfold onmessage
    by_cases h : truthy m.error = true
    · simp [h, applyEffs, applyEff]
    · rcases hl : lookupHandler s.handlers m.tag with _ | hh
      · simp [h, hl, applyEffs]
      · rcases hbe : hb hh m with _ | e <;>
          simp [h, hl, hbe, applyEffs, applyEff]

theorem pingTick_st_world (s : WSState) (w : World) :
    (pingTick s).1 = s ∧ applyEffs w (pingTick s).2 = w := by
  unfold pingTick send
  by_cases h : wsOpen s = true <;> simp [h, applyEffs, applyEff]

/-- The invariant tying the manager's fields to the environment's pending
timers, maintained by every event: at most one reconnect timer and at most
one heartbeat interval is pending, each recorded in the corresponding
field, and pending timer ids are below the allocator.  (No more can be
said of a closed manager: the open event of a socket abandoned by
`close()` can reset the retry count and re-arm both timers while the
socket reference is null.) -/
structure Inv (y : Sys) : Prop where
  rt : y.w.pendingRT = [] ∨ ∃ t, y.w.pendingRT = [t] ∧ y.st.reconnectTimer = some t
  pi : y.w.pendingPI = [] ∨ ∃ t, y.w.pendingPI = [t] ∧ y.st.pingInterval = some t
  frt : ∀ t, y.st.reconnectTimer = some t → t < y.st.nextTimerId
  fpi : ∀ t, y.st.pingInterval = some t → t < y.st.nextTimerId

theorem inv_initSys (room : String) : Inv (initSys room) := by
  refine ⟨Or.inl rfl, Or.inl rfl, ?_, ?_⟩ <;> intro t h <;>
    simp_all [initSys, initWS, initFields, connect, wsOpen, applyEffs, applyEff]

theorem inv_step_openEvt (hb : Nat → Msg → Option String) (y : Sys) (hI : Inv y) :
    Inv (step hb y Event.openEvt).1 := by
  obtain ⟨hrt, hpi, hfrt, hfpi⟩ := hI
  obtain ⟨⟨room, wse, wsr, hnd, ic, rtf, mr, rc, rd, pif, nid⟩, ⟨wrt, wpi⟩, lk⟩ := y
  simp only at hrt hpi hfrt hfpi
  by_cases hs : wse = true ∧ wsr ≠ RS.open
  · obtain ⟨hs1, hs2⟩ := hs
    subst hs1
    rcases pif with _ | pt
    · have hwpi : wpi = [] := by
        rcases hpi with h | ⟨t', h1, h2⟩
        · exact h
        · cases h2
      subst hwpi
      have hstep : step hb
          ⟨⟨room, true, wsr, hnd, ic, rtf, mr, rc, rd, none, nid⟩, ⟨wrt, []⟩, lk⟩
          Event.openEvt =
          (⟨⟨room, true, RS.open, hnd, true, rtf, mr, 0, 1000, some nid, nid + 1⟩,
             ⟨wrt, [nid]⟩, lk⟩,
            [Effect.setInterval nid 30000, Effect.wsSend (OutFrame.join room)]) := by
        simp only [step]
        rw [if_pos ⟨trivial, hs2⟩]
        rfl
      rw [hstep]
      exact ⟨hrt, Or.inr ⟨nid, rfl, rfl⟩,
        fun t ht => Nat.lt_succ_of_lt (hfrt t ht),
        fun t ht => by cases ht; exact Nat.lt_succ_self _⟩
    · have hwpiE : wpi.erase pt = [] := by
        rcases hpi with h | ⟨t', h1, h2⟩
        · rw [h]; rfl
        · injection h2 with h2
          subst h2
          rw [h1, List.erase_cons_head]
      have hstep : step hb
          ⟨⟨room, true, wsr, hnd, ic, rtf, mr, rc, rd, some pt, nid⟩, ⟨wrt, wpi⟩, lk⟩
          Event.openEvt =
          (⟨⟨room, true, RS.open, hnd, true, rtf, mr, 0, 1000, some nid, nid + 1⟩,
             ⟨wrt, wpi.erase pt ++ [nid]⟩, lk⟩,
            [Effect.clearInterval pt, Effect.setInterval nid 30000,
             Effect.wsSend (OutFrame.join room)]) := by
        simp only [step]
        rw [if_pos ⟨trivial, hs2⟩]
        rfl
      rw [hstep, hwpiE]
      exact ⟨hrt, Or.inr ⟨nid, rfl, rfl⟩,
        fun t ht => Nat.lt_succ_of_lt (hfrt t ht),
        fun t ht => by cases ht; exact Nat.lt_succ_self _⟩
  · simp only [step]
    rw [if_neg hs]
    exact ⟨hrt, hpi, hfrt, hfpi⟩

theorem inv_step_closeEvt (hb : Nat → Msg → Option String) (y : Sys) (hI : Inv y) :
    Inv (step hb y Event.closeEvt).1 := by
  obtain ⟨hrt, hpi, hfrt, hfpi⟩ := hI
  obtain ⟨⟨room, wse, wsr, hnd, ic, rtf, mr, rc, rd, pif, nid⟩, ⟨wrt, wpi⟩, lk⟩ := y
  simp only at hrt hpi hfrt hfpi
  cases wse with
  | false =>
      rcases pif with _ | pt
      · have hwpi : wpi = [] := by
          rcases hpi with h | ⟨t', h1, h2⟩
          · exact h
          · cases h2
        subst hwpi
        have hstep : step hb
            ⟨⟨room, false, wsr, hnd, ic, rtf, mr, rc, rd, none, nid⟩, ⟨wrt, []⟩, lk⟩
            Event.closeEvt =
            mkSys ⟨⟨room, false, wsr, hnd, ic, rtf, mr, rc, rd, none, nid⟩, ⟨wrt, []⟩, lk⟩
              (onclose ⟨room, false, wsr, hnd, ic, rtf, mr, rc, rd, none, nid⟩) := rfl
        rw [hstep]
        simp only [mkSys, onclose]
        rw [List.nil_append, applyEffs_handleReconnect _ _ hrt, handleReconnect_st]
        by_cases hlt : rc < mr
        · simp only [hlt, if_true]
          exact ⟨Or.inr ⟨nid, rfl, rfl⟩, Or.inl rfl,
            fun t ht => by cases ht; exact Nat.lt_succ_self _,
            fun t ht => absurd ht (by simp)⟩
        · simp only [hlt, if_false]
          exact ⟨Or.inl rfl, Or.inl rfl, hfrt,
            fun t ht => absurd ht (by simp)⟩
      · have hwpiE : wpi.erase pt = [] := by
          rcases hpi with h | ⟨t', h1, h2⟩
          · rw [h]; rfl
          · injection h2 with h2
            subst h2
            rw [h1, List.erase_cons_head]
        have hstep : step hb
            ⟨⟨room, false, wsr, hnd, ic, rtf, mr, rc, rd, some pt, nid⟩, ⟨wrt, wpi⟩, lk⟩
            Event.closeEvt =
            mkSys ⟨⟨room, false, wsr, hnd, ic, rtf, mr, rc, rd, some pt, nid⟩,
                ⟨wrt, wpi⟩, lk⟩
              (onclose ⟨room, false, wsr, hnd, ic, rtf, mr, rc, rd, some pt, nid⟩) := rfl
        rw [hstep]
        simp only [mkSys, onclose]
        rw [List.cons_append, List.nil_append, applyEffs_cons]
        have hw1 : applyEff ⟨wrt, wpi⟩ (Effect.clearInterval pt) =
            ⟨wrt, wpi.erase pt⟩ := rfl
        rw [hw1, hwpiE, applyEffs_handleReconnect _ _ hrt, handleReconnect_st]
        by_cases hlt : rc < mr
        · simp only [hlt, if_true]
          exact ⟨Or.inr ⟨nid, rfl, rfl⟩, Or.inl rfl,
            fun t ht => by cases ht; exact Nat.lt_succ_self _,
            fun t ht => absurd ht (by simp)⟩
        · simp only [hlt, if_false]
          exact ⟨Or.inl rfl, Or.inl rfl, hfrt,
            fun t ht => absurd ht (by simp)⟩
  | true =>
      rcases pif with _ | pt
      · have hwpi : wpi = [] := by
          rcases hpi with h | ⟨t', h1, h2⟩
          · exact h
          · cases h2
        subst hwpi
        simp only [step, mkSys, onclose, ite_true]
        rw [List.nil_append, applyEffs_handleReconnect _ _ hrt, handleReconnect_st]
        by_cases hlt : rc < mr
        · simp only [hlt, if_true]
          exact ⟨Or.inr ⟨nid, rfl, rfl⟩, Or.inl rfl,
            fun t ht => by cases ht; exact Nat.lt_succ_self _,
            fun t ht => absurd ht (by simp)⟩
        · simp only [hlt, if_false]
          exact ⟨Or.inl rfl, Or.inl rfl, hfrt,
            fun t ht => absurd ht (by simp)⟩
      · have hwpiE : wpi.erase pt = [] := by
          rcases hpi with h | ⟨t', h1, h2⟩
          · rw [h]; rfl
          · injection h2 with h2
            subst h2
            rw [h1, List.erase_cons_head]
        simp only [step, mkSys, onclose, ite_true]
        rw [List.cons_append, List.nil_append, applyEffs_cons]
        have hw1 : applyEff ⟨wrt, wpi⟩ (Effect.clearInterval pt) =
            ⟨wrt, wpi.erase pt⟩ := rfl
        rw [hw1, hwpiE, applyEffs_handleReconnect _ _ hrt, handleReconnect_st]
        by_cases hlt : rc < mr
        · simp only [hlt, if_true]
          exact ⟨Or.inr ⟨nid, rfl, rfl⟩, Or.inl rfl,
            fun t ht => by cases ht; exact Nat.lt_succ_self _,
            fun t ht => absurd ht (by simp)⟩
        · simp only [hlt, if_false]
          exact ⟨Or.inl rfl, Or.inl rfl, hfrt,
            fun t ht => absurd ht (by simp)⟩

theorem inv_step_errorEvt (hb : Nat → Msg → Option String) (y : Sys) (hI : Inv y) :
    Inv (step hb y Event.errorEvt).1 := by
  obtain ⟨hrt, hpi, hfrt, hfpi⟩ := hI
  exact ⟨hrt, hpi, hfrt, hfpi⟩

theorem inv_step_msgEvt (hb : Nat → Msg → Option String) (y : Sys) (f : InFrame)
    (hI : Inv y) : Inv (step hb y (Event.msgEvt f)).1 := by
  obtain ⟨h1, h2⟩ := onmessage_st_world hb y.st f y.w
  have hy : (step hb y (Event.msgEvt f)).1 = y := by
    simp only [step, mkSys]
    rw [h1, h2]
  rw [hy]
  exact hI

theorem inv_step_pingFire (hb : Nat → Msg → Option String) (y : Sys) (hI : Inv y) :
    Inv (step hb y Event.pingFire).1 := by
  rcases hw : y.w.pendingPI with _ | ⟨t, _ | ⟨t2, rest2⟩⟩
  · simpa [step, hw] using hI
  · obtain ⟨h1, h2⟩ := pingTick_st_world y.st y.w
    have hy : (step hb y Event.pingFire).1 = y := by
      simp only [step, hw, mkSys]
      rw [h1, h2]
    rw [hy]
    exact hI
  · simpa [step, hw] using hI

theorem inv_step_onMessageOp (hb : Nat → Msg → Option String) (y : Sys)
    (tag : String) (h : Nat) (hI : Inv y) :
    Inv (step hb y (Event.onMessageOp tag h)).1 := by
  obtain ⟨hrt, hpi, hfrt, hfpi⟩ := hI
  exact ⟨hrt, hpi, hfrt, hfpi⟩

theorem inv_step_sendOp (hb : Nat → Msg → Option String) (y : Sys) (p : Nat)
    (hI : Inv y) : Inv (step hb y (Event.sendOp p)).1 := by
  obtain ⟨hrt, hpi, hfrt, hfpi⟩ := hI
  by_cases hop : wsOpen y.st = true
  · have hy : (step hb y (Event.sendOp p)).1 = y := by
      simp only [step, mkSys, send, hop, if_true, applyEffs, applyEff,
        List.foldl_cons, List.foldl_nil]
    rw [hy]
    exact ⟨hrt, hpi, hfrt, hfpi⟩
  · have hsend : send y.st (OutFrame.other p) = handleReconnect y.st := by
      simp [send, hop]
    simp only [step, mkSys, hsend]
    rw [applyEffs_handleReconnect _ _ hrt, handleReconnect_st]
    by_cases hlt : y.st.retryCount < y.st.maxRetries
    · simp only [hlt, if_true]
      refine ⟨Or.inr ⟨y.st.nextTimerId, rfl, rfl⟩, hpi, ?_, ?_⟩
      · intro t ht
        cases ht
        exact Nat.lt_succ_self _
      · intro t ht
        exact Nat.lt_succ_of_lt (hfpi t ht)
    · simp only [hlt, if_false]
      exact ⟨Or.inl rfl, hpi, hfrt, hfpi⟩

theorem inv_step_timerFire (hb : Nat → Msg → Option String) (y : Sys) (hI : Inv y) :
    Inv (step hb y Event.timerFire).1 := by
  obtain ⟨hrt, hpi, hfrt, hfpi⟩ := hI
  obtain ⟨⟨room, wse, wsr, hnd, ic, rtf, mr, rc, rd, pif, nid⟩, ⟨wrt, wpi⟩, lk⟩ := y
  simp only at hrt hpi hfrt hfpi
  rcases wrt with _ | ⟨t, _ | ⟨t2, rest2⟩⟩
  · exact ⟨Or.inl rfl, hpi, hfrt, hfpi⟩
  · cases wse with
    | false =>
        show Inv ⟨⟨room, true, RS.connecting, hnd, ic, none, mr, rc, rd, pif, nid⟩,
          ⟨[], wpi⟩, lk⟩
        exact ⟨Or.inl rfl, hpi, fun t' ht' => absurd ht' (by simp), hfpi⟩
    | true =>
        cases wsr with
        | «open» =>
            show Inv ⟨⟨room, true, RS.open, hnd, ic, none, mr, rc, rd, pif, nid⟩,
              ⟨[], wpi⟩, lk⟩
            exact ⟨Or.inl rfl, hpi, fun t' ht' => absurd ht' (by simp), hfpi⟩
        | connecting =>
            show Inv ⟨⟨room, true, RS.connecting, hnd, ic, none, mr, rc, rd, pif, nid⟩,
              ⟨[], wpi⟩, lk⟩
            exact ⟨Or.inl rfl, hpi, fun t' ht' => absurd ht' (by simp), hfpi⟩
        | closed =>
            show Inv ⟨⟨room, true, RS.connecting, hnd, ic, none, mr, rc, rd, pif, nid⟩,
              ⟨[], wpi⟩, lk⟩
            exact ⟨Or.inl rfl, hpi, fun t' ht' => absurd ht' (by simp), hfpi⟩
  · exact ⟨hrt, hpi, hfrt, hfpi⟩

theorem inv_step_staleOpen (hb : Nat → Msg → Option String) (y : Sys) (hI : Inv y) :
    Inv (step hb y Event.staleOpenEvt).1 := by
  obtain ⟨hrt, hpi, hfrt, hfpi⟩ := hI
  obtain ⟨⟨room, wse, wsr, hnd, ic, rtf, mr, rc, rd, pif, nid⟩, ⟨wrt, wpi⟩, lk⟩ := y
  simp only at hrt hpi hfrt hfpi
  by_cases hg : lk = true ∧ wse = false
  · obtain ⟨hg1, hg2⟩ := hg
    subst hg1 hg2
    simp only [step]
    rw [if_pos ⟨by trivial, by trivial⟩]
    rcases pif with _ | pt
    · have hwpi : wpi = [] := by
        rcases hpi with h | ⟨t', h1, h2⟩
        · exact h
        · cases h2
      subst hwpi
      have h1 : (onopen ⟨room, false, wsr, hnd, ic, rtf, mr, rc, rd, none, nid⟩).1 =
          (handleReconnect
            ⟨room, false, wsr, hnd, true, rtf, mr, 0, 1000, some nid, nid + 1⟩).1 := rfl
      have h2 : applyEffs ⟨wrt, []⟩
          (onopen ⟨room, false, wsr, hnd, ic, rtf, mr, rc, rd, none, nid⟩).2 =
          applyEffs ⟨wrt, [nid]⟩
            (handleReconnect
              ⟨room, false, wsr, hnd, true, rtf, mr, 0, 1000, some nid, nid + 1⟩).2 := by
        rw [show (onopen ⟨room, false, wsr, hnd, ic, rtf, mr, rc, rd, none, nid⟩).2 =
            [Effect.setInterval nid 30000] ++
              (handleReconnect
                ⟨room, false, wsr, hnd, true, rtf, mr, 0, 1000, some nid, nid + 1⟩).2
          from rfl, applyEffs_append]
        rfl
      rw [h1, h2, applyEffs_handleReconnect _ _ hrt, handleReconnect_st]
      by_cases hlt : (0 : Nat) < mr
      · simp only [hlt, if_true]
        exact ⟨Or.inr ⟨nid + 1, rfl, rfl⟩, Or.inr ⟨nid, rfl, rfl⟩,
          fun t ht => by cases ht; exact Nat.lt_succ_self _,
          fun t ht => by cases ht; exact Nat.lt_succ_of_lt (Nat.lt_succ_self _)⟩
      · simp only [hlt, if_false]
        exact ⟨Or.inl rfl, Or.inr ⟨nid, rfl, rfl⟩,
          fun t ht => Nat.lt_succ_of_lt (hfrt t ht),
          fun t ht => by cases ht; exact Nat.lt_succ_self _⟩
    · have hwpiE : wpi.erase pt = [] := by
        rcases hpi with h | ⟨t', h1, h2⟩
        · rw [h]; rfl
        · injection h2 with h2
          subst h2
          rw [h1, List.erase_cons_head]
      have h1 : (onopen ⟨room, false, wsr, hnd, ic, rtf, mr, rc, rd, some pt, nid⟩).1 =
          (handleReconnect
            ⟨room, false, wsr, hnd, true, rtf, mr, 0, 1000, some nid, nid + 1⟩).1 := rfl
      have h2 : applyEffs ⟨wrt, wpi⟩
          (onopen ⟨room, false, wsr, hnd, ic, rtf, mr, rc, rd, some pt, nid⟩).2 =
          applyEffs ⟨wrt, wpi.erase pt ++ [nid]⟩
            (handleReconnect
              ⟨room, false, wsr, hnd, true, rtf, mr, 0, 1000, some nid, nid + 1⟩).2 := by
        rw [show (onopen ⟨room, false, wsr, hnd, ic, rtf, mr, rc, rd, some pt, nid⟩).2 =
            [Effect.clearInterval pt, Effect.setInterval nid 30000] ++
              (handleReconnect
                ⟨room, false, wsr, hnd, true, rtf, mr, 0, 1000, some nid, nid + 1⟩).2
          from rfl, applyEffs_append]
        rfl
      rw [h1, h2, hwpiE, applyEffs_handleReconnect _ _ hrt, handleReconnect_st]
      by_cases hlt : (0 : Nat) < mr
      · simp only [hlt, if_true]
        exact ⟨Or.inr ⟨nid + 1, rfl, rfl⟩, Or.inr ⟨nid, rfl, rfl⟩,
          fun t ht => by cases ht; exact Nat.lt_succ_self _,
          fun t ht => by cases ht; exact Nat.lt_succ_of_lt (Nat.lt_succ_self _)⟩
      · simp only [hlt, if_false]
        exact ⟨Or.inl rfl, Or.inr ⟨nid, rfl, rfl⟩,
          fun t ht => Nat.lt_succ_of_lt (hfrt t ht),
          fun t ht => by cases ht; exact Nat.lt_succ_self _⟩
  · simp only [step]
    rw [if_neg hg]
    exact ⟨hrt, hpi, hfrt, hfpi⟩

/-- Full characterization of one `close()` call from a state satisfying
the timer agreement: both pending timers are cancelled, the handler
registry is cleared, the socket reference is dropped, the retry count is
forced to `maxRetries` exactly when a socket reference existed, the
transport is closed with the normal-closure code exactly when it was
open, and a still-connecting socket is recorded as abandoned. -/
theorem step_closeOp_spec (hb : Nat → Msg → Option String) (y : Sys)
    (hrt : y.w.pendingRT = [] ∨ ∃ t, y.w.pendingRT = [t] ∧ y.st.reconnectTimer = some t)
    (hpi : y.w.pendingPI = [] ∨ ∃ t, y.w.pendingPI = [t] ∧ y.st.pingInterval = some t) :
    (step hb y Event.closeOp).1 =
      ⟨{ y.st with
          wsExists := false,
          isConnected := false,
          handlers := [],
          reconnectTimer := none,
          pingInterval := none,
          retryCount := if y.st.wsExists then y.st.maxRetries else y.st.retryCount },
        ⟨[], []⟩, y.leaked || leakAfterClose y.st⟩
    ∧ (wsOpen y.st = true → Effect.wsClose 1000 ∈ (step hb y Event.closeOp).2) := by
  obtain ⟨⟨room, wse, wsr, hnd, ic, rtf, mr, rc, rd, pif, nid⟩, ⟨wrt, wpi⟩, lk⟩ := y
  simp only at hrt hpi
  rcases rtf with _ | t
  · have hwrt : wrt = [] := by
      rcases hrt with h | ⟨t', h1, h2⟩
      · exact h
      · cases h2
    subst hwrt
    rcases pif with _ | pt
    · have hwpi : wpi = [] := by
        rcases hpi with h | ⟨t', h1, h2⟩
        · exact h
        · cases h2
      subst hwpi
      cases wse <;> cases wsr <;>
        refine ⟨?_, ?_⟩ <;>
          simp [step, close, applyEffs, applyEff, wsOpen, leakAfterClose]
    · have hwpiE : wpi.erase pt = [] := by
        rcases hpi with h | ⟨t', h1, h2⟩
        · rw [h]; rfl
        · injection h2 with h2
          subst h2
          rw [h1, List.erase_cons_head]
      cases wse <;> cases wsr <;>
        refine ⟨?_, ?_⟩ <;>
          simp [step, close, applyEffs, applyEff, hwpiE, wsOpen, leakAfterClose]
  · have hwrtE : wrt.erase t = [] := by
      rcases hrt with h | ⟨t', h1, h2⟩
      · rw [h]; rfl
      · injection h2 with h2
        subst h2
        rw [h1, List.erase_cons_head]
    rcases pif with _ | pt
    · have hwpi : wpi = [] := by
        rcases hpi with h | ⟨t', h1, h2⟩
        · exact h
        · cases h2
      subst hwpi
      cases wse <;> cases wsr <;>
        refine ⟨?_, ?_⟩ <;>
          simp [step, close, applyEffs, applyEff, hwrtE, wsOpen, leakAfterClose]
    · have hwpiE : wpi.erase pt = [] := by
        rcases hpi with h | ⟨t', h1, h2⟩
        · rw [h]; rfl
        · injection h2 with h2
          subst h2
          rw [h1, List.erase_cons_head]
      cases wse <;> cases wsr <;>
        refine ⟨?_, ?_⟩ <;>
          simp [step, close, applyEffs, applyEff, hwrtE, hwpiE, wsOpen, leakAfterClose]

theorem inv_step_closeOp (hb : Nat → Msg → Option String) (y : Sys) (hI : Inv y) :
    Inv (step hb y Event.closeOp).1 := by
  obtain ⟨hrt, hpi, hfrt, hfpi⟩ := hI
  obtain ⟨hs, _⟩ := step_closeOp_spec hb y hrt hpi
  rw [hs]
  exact ⟨Or.inl rfl, Or.inl rfl,
    fun t ht => absurd ht (by simp),
    fun t ht => absurd ht (by simp)⟩

/-- Every event preserves the timer/field invariant. -/
theorem inv_step (hb : Nat → Msg → Option String) (y : Sys) (e : Event) (hI : Inv y) :
    Inv (step hb y e).1 := by
  cases e with
  | openEvt => exact inv_step_openEvt hb y hI
  | closeEvt => exact inv_step_closeEvt hb y hI
  | errorEvt => exact inv_step_errorEvt hb y hI
  | msgEvt f => exact inv_step_msgEvt hb y f hI
  | timerFire => exact inv_step_timerFire hb y hI
  | pingFire => exact inv_step_pingFire hb y hI
  | sendOp p => exact inv_step_sendOp hb y p hI
  | onMessageOp tag h => exact inv_step_onMessageOp hb y tag h hI
  | closeOp => exact inv_step_closeOp hb y hI
  | staleOpenEvt => exact inv_step_staleOpen hb y hI

theorem inv_run (hb : Nat → Msg → Option String) (y : Sys) (evs : List Event)
    (hI : Inv y) : Inv (run hb y evs).1 := by
  induction evs generalizing y with
  | nil => exact hI
  | cons e es ih => exact ih (step hb y e).1 (inv_step hb y e hI)

/-- Every state the manager can actually be in satisfies the invariant. -/
theorem reachable_inv (hb : Nat → Msg → Option String) (y : Sys)
    (h : Reachable hb y) : Inv y := by
  obtain ⟨room, evs, hr⟩ := h
  rw [← hr]
  exact inv_run hb (initSys room) evs (inv_initSys room)

/-- After any close event on a state satisfying the invariant, the
pending reconnect timers are exactly the freshly armed one (when the
budget allows) or none, and no heartbeat interval is pending. -/
theorem step_closeEvt_w (hb : Nat → Msg → Option String) (y : Sys) (hI : Inv y) :
    ((step hb y Event.closeEvt).1).w =
      ⟨if y.st.retryCount < y.st.maxRetries then [y.st.nextTimerId] else [], []⟩ := by
  obtain ⟨hrt, hpi, hfrt, hfpi⟩ := hI
  obtain ⟨⟨room, wse, wsr, hnd, ic, rtf, mr, rc, rd, pif, nid⟩, ⟨wrt, wpi⟩, lk⟩ := y
  simp only at hrt hpi
  cases wse with
  | false =>
      rcases pif with _ | pt
      · have hwpi : wpi = [] := by
          rcases hpi with h | ⟨t', h1, h2⟩
          · exact h
          · cases h2
        subst hwpi
        have hstep : step hb
            ⟨⟨room, false, wsr, hnd, ic, rtf, mr, rc, rd, none, nid⟩, ⟨wrt, []⟩, lk⟩
            Event.closeEvt =
            mkSys ⟨⟨room, false, wsr, hnd, ic, rtf, mr, rc, rd, none, nid⟩, ⟨wrt, []⟩, lk⟩
              (onclose ⟨room, false, wsr, hnd, ic, rtf, mr, rc, rd, none, nid⟩) := rfl
        rw [hstep]
        simp only [mkSys, onclose]
        rw [List.nil_append, applyEffs_handleReconnect _ _ hrt]
        by_cases hlt : rc < mr <;> simp [hlt]
      · have hwpiE : wpi.erase pt = [] := by
          rcases hpi with h | ⟨t', h1, h2⟩
          · rw [h]; rfl
          · injection h2 with h2
            subst h2
            rw [h1, List.erase_cons_head]
        have hstep : step hb
            ⟨⟨room, false, wsr, hnd, ic, rtf, mr, rc, rd, some pt, nid⟩, ⟨wrt, wpi⟩, lk⟩
            Event.closeEvt =
            mkSys ⟨⟨room, false, wsr, hnd, ic, rtf, mr, rc, rd, some pt, nid⟩,
                ⟨wrt, wpi⟩, lk⟩
              (onclose ⟨room, false, wsr, hnd, ic, rtf, mr, rc, rd, some pt, nid⟩) := rfl
        rw [hstep]
        simp only [mkSys, onclose]
        rw [List.cons_append, List.nil_append, applyEffs_cons]
        have hw1 : applyEff ⟨wrt, wpi⟩ (Effect.clearInterval pt) =
            ⟨wrt, wpi.erase pt⟩ := rfl
        rw [hw1, hwpiE, applyEffs_handleReconnect _ _ hrt]
        by_cases hlt : rc < mr <;> simp [hlt]
  | true =>
      rcases pif with _ | pt
      · have hwpi : wpi = [] := by
          rcases hpi with h | ⟨t', h1, h2⟩
          · exact h
          · cases h2
        subst hwpi
        simp only [step, mkSys, onclose, ite_true]
        rw [List.nil_append, applyEffs_handleReconnect _ _ hrt]
        by_cases hlt : rc < mr <;> simp [hlt]
      · have hwpiE : wpi.erase pt = [] := by
          rcases hpi with h | ⟨t', h1, h2⟩
          · rw [h]; rfl
          · injection h2 with h2
            subst h2
            rw [h1, List.erase_cons_head]
        simp only [step, mkSys, onclose, ite_true]
        rw [List.cons_append, List.nil_append, applyEffs_cons]
        have hw1 : applyEff ⟨wrt, wpi⟩ (Effect.clearInterval pt) =
            ⟨wrt, wpi.erase pt⟩ := rfl
        rw [hw1, hwpiE, applyEffs_handleReconnect _ _ hrt]
        by_cases hlt : rc < mr <;> simp [hlt]

/-- C4: on every reachable state, at most one reconnect timer is pending;
and when one is pending, a further failure (close event) cancels it — the
old timer id is no longer pending afterwards, whether or not a fresh timer
was armed in its place. -/
theorem at_most_one_reconnect_timer (hb : Nat → Msg → Option String) (y : Sys)
    (h : Reachable hb y) :
    y.w.pendingRT.length ≤ 1
    ∧ ∀ t, y.w.pendingRT = [t] →
        t ∉ ((step hb y Event.closeEvt).1).w.pendingRT := by
  have hI := reachable_inv hb y h
  refine ⟨?_, ?_⟩
  · rcases hI.rt with h1 | ⟨t, h1, _⟩ <;> simp [h1]
  · intro t ht
    have hfield : y.st.reconnectTimer = some t := by
      rcases hI.rt with h1 | ⟨t', h1, h2⟩
      · rw [ht] at h1; cases h1
      · rw [ht] at h1
        injection h1 with h1a h1b
        rw [← h1a] at h2
        exact h2
    have htlt : t < y.st.nextTimerId := hI.frt t hfield
    rw [step_closeEvt_w hb y hI]
    by_cases hlt : y.st.retryCount < y.st.maxRetries
    · simp only [hlt, if_true]
      simp
      omega
    · simp [hlt]

/-- Witness for C4 at the concrete reachable state reached by one failure
from a fresh manager, where timer 1 is pending. -/
theorem at_most_one_reconnect_timer_witness :
    ((run hb0 (initSys "room") [Event.closeEvt]).1).w.pendingRT.length ≤ 1
    ∧ 1 ∉ ((step hb0 ((run hb0 (initSys "room") [Event.closeEvt]).1)
          Event.closeEvt).1).w.pendingRT :=
  ⟨(at_most_one_reconnect_timer hb0 _ ⟨"room", [Event.closeEvt], rfl⟩).1,
   (at_most_one_reconnect_timer hb0 _ ⟨"room", [Event.closeEvt], rfl⟩).2 1 rfl⟩

/-- Is the effect an outbound heartbeat frame? -/
def isPingSend : Effect → Bool
  | Effect.wsSend OutFrame.ping => true
  | _ => false

/-- Does the effect arm an interval whose period is not the 30000 ms
heartbeat period? -/
def offInterval : Effect → Bool
  | Effect.setInterval _ p => if p = 30000 then false else true
  | _ => false

theorem handleReconnect_filter (s : WSState) :
    (handleReconnect s).2.filter isPingSend = []
    ∧ (handleReconnect s).2.filter offInterval = [] := by
  unfold handleReconnect
  rcases s.reconnectTimer with _ | t <;>
    by_cases h : s.retryCount < s.maxRetries <;>
      simp [h, isPingSend, offInterval]

theorem onclose_filter (s : WSState) :
    (onclose s).2.filter isPingSend = []
    ∧ (onclose s).2.filter offInterval = [] := by
  unfold onclose
  rcases s.pingInterval with _ | t <;>
    simp [isPingSend, offInterval, List.filter_append, handleReconnect_filter]

theorem connect_filter (s : WSState) :
    (connect s).2.filter isPingSend = []
    ∧ (connect s).2.filter offInterval = [] := by
  unfold connect
  by_cases h : wsOpen s = true <;> rcases hex : s.wsExists <;>
    simp [h, hex, isPingSend, offInterval]

theorem close_filter (s : WSState) :
    (close s).2.filter isPingSend = []
    ∧ (close s).2.filter offInterval = [] := by
  unfold close
  rcases s.reconnectTimer with _ | t <;>
    rcases hpi : s.pingInterval with _ | t' <;>
      rcases hex : s.wsExists with _ | _ <;>
        rcases hrs : s.wsReady with _ | _ | _ <;>
          simp [hpi, hex, hrs, isPingSend, offInterval, List.filter_append]

theorem onmessage_filter (hb : Nat → Msg → Option String) (s : WSState) (f : InFrame) :
    (onmessage hb s f).2.filter isPingSend = []
    ∧ (onmessage hb s f).2.filter offInterval = [] := by
  rcases f with raw | m
  · exact ⟨rfl, rfl⟩
  · unfold onmessage
    by_cases h : truthy m.error = true
    · simp [h, isPingSend, offInterval]
    · rcases hl : lookupHandler s.handlers m.tag with _ | hh
      · simp [h, hl]
      · rcases hbe : hb hh m with _ | e <;>
          simp [h, hl, hbe, isPingSend, offInterval]

theorem onopen_filter (s : WSState) :
    (onopen s).2.filter isPingSend = []
    ∧ (onopen s).2.filter offInterval = [] := by
  unfold onopen setupPing send
  rcases hpi : s.pingInterval with _ | t <;>
    by_cases h : wsOpen { s with
        isConnected := true, retryCount := 0, retryDelay := 1000,
        pingInterval := some s.nextTimerId, nextTimerId := s.nextTimerId + 1 } = true <;>
      simp [hpi, h, isPingSend, offInterval, List.filter_append, handleReconnect_filter]

theorem pingTick_filter (s : WSState) :
    ((pingTick s).2.filter offInterval = [])
    ∧ (wsOpen s = false → (pingTick s).2.filter isPingSend = []) := by
  unfold pingTick send
  by_cases h : wsOpen s = true <;> simp [h, isPingSend, offInterval]

theorem send_other_filter (s : WSState) (p : Nat) :
    ((send s (OutFrame.other p)).2.filter isPingSend = [])
    ∧ ((send s (OutFrame.other p)).2.filter offInterval = []) := by
  unfold send
  by_cases h : wsOpen s = true <;>
    simp [h, isPingSend, offInterval, handleReconnect_filter]

theorem pingSend_step (hb : Nat → Msg → Option String) (y : Sys) (e : Event)
    (h : wsOpen y.st = false) : (step hb y e).2.filter isPingSend = [] := by
  rcases e with _ | _ | _ | f | _ | _ | p | ⟨tag, hh⟩ | _ | _
  · by_cases hs : y.st.wsExists = true ∧ y.st.wsReady ≠ RS.open
    · simp only [step]
      rw [if_pos hs]
      exact (onopen_filter _).1
    · simp only [step]
      rw [if_neg hs]
      rfl
  · exact (onclose_filter _).1
  · rfl
  · exact (onmessage_filter hb _ f).1
  · rcases hw : y.w.pendingRT with _ | ⟨t, _ | ⟨t2, r2⟩⟩ <;>
      simp only [step, hw] <;>
      first
        | rfl
        | exact (connect_filter _).1
  · rcases hw : y.w.pendingPI with _ | ⟨t, _ | ⟨t2, r2⟩⟩ <;>
      simp only [step, hw] <;>
      first
        | rfl
        | exact (pingTick_filter _).2 h
  · exact (send_other_filter _ p).1
  · rfl
  · exact (close_filter _).1
  · by_cases hg : y.leaked = true ∧ y.st.wsExists = false
    · simp only [step]
      rw [if_pos hg]
      exact (onopen_filter _).1
    · simp only [step]
      rw [if_neg hg]
      rfl

theorem offInterval_step (hb : Nat → Msg → Option String) (y : Sys) (e : Event) :
    (step hb y e).2.filter offInterval = [] := by
  rcases e with _ | _ | _ | f | _ | _ | p | ⟨tag, hh⟩ | _ | _
  · by_cases hs : y.st.wsExists = true ∧ y.st.wsReady ≠ RS.open
    · simp only [step]
      rw [if_pos hs]
      exact (onopen_filter _).2
    · simp only [step]
      rw [if_neg hs]
      rfl
  · exact (onclose_filter _).2
  · rfl
  · exact (onmessage_filter hb _ f).2
  · rcases hw : y.w.pendingRT with _ | ⟨t, _ | ⟨t2, r2⟩⟩ <;>
      simp only [step, hw] <;>
      first
        | rfl
        | exact (connect_filter _).2
  · rcases hw : y.w.pendingPI with _ | ⟨t, _ | ⟨t2, r2⟩⟩ <;>
      simp only [step, hw] <;>
      first
        | rfl
        | exact (pingTick_filter _).1
  · exact (send_other_filter _ p).2
  · rfl
  · exact (close_filter _).2
  · by_cases hg : y.leaked = true ∧ y.st.wsExists = false
    · simp only [step]
      rw [if_pos hg]
      exact (onopen_filter _).2
    · simp only [step]
      rw [if_neg hg]
      rfl

/-- C5 counterexample: a reachable state in which the heartbeat interval
is pending while the manager is not open, and in which the next reconnect
attempt does not stop it.  `close()` during establishment abandons the
connecting socket without closing it; when that socket's open callback
fires, `setupPing` arms the 30000 ms interval although `this.ws` is null,
and the reconnect attempt armed by the dropped join send leaves the
interval pending — contradicting the claim that the interval is stopped
whenever the channel is not Open, in particular on a reconnect attempt. -/
theorem heartbeat_pending_while_not_open :
    ((run hb0 (initSys "room") [Event.closeOp, Event.staleOpenEvt]).1).w.pendingPI = [1]
    ∧ wsOpen ((run hb0 (initSys "room")
        [Event.closeOp, Event.staleOpenEvt]).1).st = false
    ∧ ((run hb0 (initSys "room")
        [Event.closeOp, Event.staleOpenEvt, Event.timerFire]).1).w.pendingPI = [1]
    ∧ wsOpen ((run hb0 (initSys "room")
        [Event.closeOp, Event.staleOpenEvt, Event.timerFire]).1).st = false
    ∧ Reachable hb0 ((run hb0 (initSys "room")
        [Event.closeOp, Event.staleOpenEvt]).1) :=
  ⟨rfl, rfl, rfl, rfl, "room", [Event.closeOp, Event.staleOpenEvt], rfl⟩

/-- C5 amended: no step ever emits a `{type:"ping"}` frame unless the
socket is open at that step (the interval callback checks the current
ready state, so a pending interval never sends against a non-open
transport); every interval ever armed has the fixed 30000 ms heartbeat
period; on every reachable state, the transport close handler and
`close()` each leave no heartbeat interval pending; and while open, each
tick of the pending interval emits exactly one ping frame.  A reconnect
attempt, however, does not stop the interval, and the open callback of a
socket abandoned by `close()` can arm it while the manager holds no
socket. -/
theorem heartbeat_gating (hb : Nat → Msg → Option String) :
    (∀ y e, Effect.wsSend OutFrame.ping ∈ (step hb y e).2 → wsOpen y.st = true)
    ∧ (∀ y e i p, Effect.setInterval i p ∈ (step hb y e).2 → p = 30000)
    ∧ (∀ y, Reachable hb y →
        ((step hb y Event.closeEvt).1).w.pendingPI = []
        ∧ ((step hb y Event.closeOp).1).w.pendingPI = [])
    ∧ (∀ y t, y.w.pendingPI = [t] → wsOpen y.st = true →
        (step hb y Event.pingFire).2 = [Effect.wsSend OutFrame.ping]) := by
  refine ⟨?_, ?_, ?_, ?_⟩
  · intro y e hmem
    cases hop : wsOpen y.st
    · have hf := pingSend_step hb y e hop
      have : Effect.wsSend OutFrame.ping ∈ (step hb y e).2.filter isPingSend :=
        List.mem_filter.mpr ⟨hmem, rfl⟩
      rw [hf] at this
      cases this
    · rfl
  · intro y e i p hmem
    by_cases hp : p = 30000
    · exact hp
    · have hf := offInterval_step hb y e
      have : Effect.setInterval i p ∈ (step hb y e).2.filter offInterval :=
        List.mem_filter.mpr ⟨hmem, by simp [offInterval, hp]⟩
      rw [hf] at this
      cases this
  · intro y hr
    have hI := reachable_inv hb y hr
    constructor
    · rw [step_closeEvt_w hb y hI]
    · obtain ⟨hs, _⟩ := step_closeOp_spec hb y hI.rt hI.pi
      rw [hs]
  · intro y t hw hop
    simp [step, hw, mkSys, pingTick, send, hop]

/-- Witness for the amended C5 theorem at concrete inputs: after the open
event the heartbeat interval (id 1, period 30000) is pending and a tick
emits exactly one ping; a transport close and a `close()` from that state
each leave no interval pending; and the interval armed by the open step
has period 30000. -/
theorem heartbeat_gating_witness :
    wsOpen ((run hb0 (initSys "room") [Event.openEvt]).1).st = true
    ∧ (step hb0 ((run hb0 (initSys "room") [Event.openEvt]).1) Event.pingFire).2 =
        [Effect.wsSend OutFrame.ping]
    ∧ ((step hb0 ((run hb0 (initSys "room") [Event.openEvt]).1)
          Event.closeEvt).1).w.pendingPI = []
    ∧ ((step hb0 ((run hb0 (initSys "room") [Event.openEvt]).1)
          Event.closeOp).1).w.pendingPI = []
    ∧ (∀ i p, Effect.setInterval i p ∈
        (step hb0 (initSys "room") Event.openEvt).2 → p = 30000) :=
  ⟨by decide,
   (heartbeat_gating hb0).2.2.2 _ 1 rfl rfl,
   ((heartbeat_gating hb0).2.2.1 _ ⟨"room", [Event.openEvt], rfl⟩).1,
   ((heartbeat_gating hb0).2.2.1 _ ⟨"room", [Event.openEvt], rfl⟩).2,
   fun i p hm => (heartbeat_gating hb0).2.1 (initSys "room") Event.openEvt i p hm⟩

theorem close_closed_state (s : WSState) (h1 : s.reconnectTimer = none)
    (h2 : s.pingInterval = none) (h3 : s.wsExists = false)
    (h4 : s.isConnected = false) (h5 : s.handlers = []) :
    close s = (s, []) := by
  obtain ⟨room, wse, wsr, hnd, ic, rtf, mr, rc, rd, pif, nid⟩ := s
  simp only at h1 h2 h3 h4 h5
  subst h1 h2 h3 h4 h5
  rfl

/-- C2 counterexample.  Two failures of the original claim at concrete
reachable inputs.  First, the freshly constructed manager (socket exists,
still connecting) is closed and the call emits no effect at all — in
particular no normal-closure close of the transport, because the source
guards `ws.close(1000, ...)` with `readyState === OPEN`.  Second, that
same abandoned socket's open callback later fires and resurrects the
manager (`retryCount` reset, heartbeat interval and — via the dropped
join send — a reconnect timer armed); a second `close()` then runs with
`this.ws === null`, so it does not force the retry count to its maximum
(it stays `1 < 3`), and a subsequent transport close event arms a fresh
reconnect timer — close() is not total. -/
theorem close_while_connecting_emits_no_normal_closure :
    (initSys "room").st.wsExists = true
    ∧ (initSys "room").st.wsReady = RS.connecting
    ∧ (step hb0 (initSys "room") Event.closeOp).2 = []
    ∧ ((run hb0 (initSys "room")
        [Event.closeOp, Event.staleOpenEvt, Event.closeOp]).1).st.retryCount = 1
    ∧ ((run hb0 (initSys "room")
        [Event.closeOp, Event.staleOpenEvt, Event.closeOp]).1).st.maxRetries = 3
    ∧ ((run hb0 (initSys "room")
        [Event.closeOp, Event.staleOpenEvt, Event.closeOp,
         Event.closeEvt]).1).w.pendingRT = [3]
    ∧ Reachable hb0 ((run hb0 (initSys "room")
        [Event.closeOp, Event.staleOpenEvt, Event.closeOp]).1) :=
  ⟨rfl, rfl, rfl, rfl, rfl, rfl, "room",
   [Event.closeOp, Event.staleOpenEvt, Event.closeOp], rfl⟩

/-- C2 amended: from every reachable state, one `close()` cancels any
pending reconnect timer and heartbeat interval, clears the handler
registry, marks the manager disconnected, and drops the socket reference;
when a socket reference exists it forces the retry attempt count to its
maximum, and it closes the transport with the normal-closure code 1000
when — and only when — the transport was open at the time of the call (a
connecting or already-closed transport is abandoned without an explicit
close); an immediately repeated `close()` changes nothing and emits no
effect; the later transport error event only reports to the error sink;
and when the `close()` held a socket reference, a late transport close
event afterwards arms no timer and starts no reconnection attempt.  (A
`close()` issued with no socket reference — reachable only after the open
callback of a socket a previous `close()` abandoned while connecting —
leaves the retry count below the maximum, and a later close event then
re-arms a reconnect timer; see the counterexample.) -/
theorem close_total_and_idempotent (hb : Nat → Msg → Option String) (y : Sys)
    (h : Reachable hb y) :
    ((step hb y Event.closeOp).1.w = ⟨[], []⟩
      ∧ (step hb y Event.closeOp).1.st.handlers = []
      ∧ (step hb y Event.closeOp).1.st.wsExists = false
      ∧ (step hb y Event.closeOp).1.st.reconnectTimer = none
      ∧ (step hb y Event.closeOp).1.st.pingInterval = none
      ∧ (y.st.wsExists = true →
          (step hb y Event.closeOp).1.st.retryCount =
            (step hb y Event.closeOp).1.st.maxRetries))
    ∧ (wsOpen y.st = true → Effect.wsClose 1000 ∈ (step hb y Event.closeOp).2)
    ∧ step hb (step hb y Event.closeOp).1 Event.closeOp =
        ((step hb y Event.closeOp).1, [])
    ∧ (y.st.wsExists = true →
        (step hb (step hb y Event.closeOp).1 Event.closeEvt).2 =
          [Effect.errorSink ErrMsg.maxAttempts])
    ∧ (step hb (step hb y Event.closeOp).1 Event.errorEvt).2 =
        [Effect.errorSink ErrMsg.wsConnectionError] := by
  have hI := reachable_inv hb y h
  obtain ⟨hs, hcl⟩ := step_closeOp_spec hb y hI.rt hI.pi
  refine ⟨⟨?_, ?_, ?_, ?_, ?_, ?_⟩, hcl, ?_, ?_, ?_⟩
  · rw [hs]
  · rw [hs]
  · rw [hs]
  · rw [hs]
  · rw [hs]
  · intro hw
    rw [hs]
    simp [hw]
  · rw [hs]
    rw [show step hb
        ⟨{ y.st with
            wsExists := false,
            isConnected := false,
            handlers := [],
            reconnectTimer := none,
            pingInterval := none,
            retryCount := if y.st.wsExists then y.st.maxRetries else y.st.retryCount },
          ⟨[], []⟩, y.leaked || leakAfterClose y.st⟩ Event.closeOp =
        ({ st := (close { y.st with
              wsExists := false,
              isConnected := false,
              handlers := [],
              reconnectTimer := none,
              pingInterval := none,
              retryCount := if y.st.wsExists then y.st.maxRetries
                else y.st.retryCount }).1
         , w := applyEffs ⟨[], []⟩ (close { y.st with
              wsExists := false,
              isConnected := false,
              handlers := [],
              reconnectTimer := none,
              pingInterval := none,
              retryCount := if y.st.wsExists then y.st.maxRetries
                else y.st.retryCount }).2
         , leaked := (y.leaked || leakAfterClose y.st) || false },
         (close { y.st with
              wsExists := false,
              isConnected := false,
              handlers := [],
              reconnectTimer := none,
              pingInterval := none,
              retryCount := if y.st.wsExists then y.st.maxRetries
                else y.st.retryCount }).2)
        from rfl]
    rw [close_closed_state _ rfl rfl rfl rfl rfl]
    simp [applyEffs_nil]
  · intro hw
    rw [hs]
    have hnot : ¬((if y.st.wsExists then y.st.maxRetries else y.st.retryCount) <
        y.st.maxRetries) := by
      rw [if_pos]
      · exact Nat.lt_irrefl _
      · exact hw
    simp [step, mkSys, onclose, handleReconnect, hnot, applyEffs, applyEff]
  · rw [hs]
    rfl

/-- Witness for the amended C2 theorem at a concrete reachable state: the
manager that has seen a successful open (socket open, heartbeat pending).
There, `close()` empties both pending-timer sets, forces the retry count
to its maximum, closes the open transport with code 1000, is idempotent,
and late transport events only reach the error sink. -/
theorem close_total_and_idempotent_witness :
    ((step hb0 ((run hb0 (initSys "room") [Event.openEvt]).1) Event.closeOp).1.w =
        ⟨[], []⟩
      ∧ (step hb0 ((run hb0 (initSys "room") [Event.openEvt]).1)
          Event.closeOp).1.st.retryCount =
        (step hb0 ((run hb0 (initSys "room") [Event.openEvt]).1)
          Event.closeOp).1.st.maxRetries
      ∧ Effect.wsClose 1000 ∈
          (step hb0 ((run hb0 (initSys "room") [Event.openEvt]).1) Event.closeOp).2)
    ∧ step hb0
        (step hb0 ((run hb0 (initSys "room") [Event.openEvt]).1) Event.closeOp).1
        Event.closeOp =
      ((step hb0 ((run hb0 (initSys "room") [Event.openEvt]).1) Event.closeOp).1, [])
    ∧ (step hb0
        (step hb0 ((run hb0 (initSys "room") [Event.openEvt]).1) Event.closeOp).1
        Event.closeEvt).2 = [Effect.errorSink ErrMsg.maxAttempts] :=
  ⟨⟨(close_total_and_idempotent hb0 _ ⟨"room", [Event.openEvt], rfl⟩).1.1,
    (close_total_and_idempotent hb0 _ ⟨"room", [Event.openEvt], rfl⟩).1.2.2.2.2.2 rfl,
    (close_total_and_idempotent hb0 _ ⟨"room", [Event.openEvt], rfl⟩).2.1 rfl⟩,
   (close_total_and_idempotent hb0 _ ⟨"room", [Event.openEvt], rfl⟩).2.2.1,
   (close_total_and_idempotent hb0 _ ⟨"room", [Event.openEvt], rfl⟩).2.2.2.1 rfl⟩

end WSModel
